import Mathlib

/-!
Verification of the ServerGem deployment-orchestrator backend.

The definitions below are a shallow embedding of the Python sources under
src/backend: each definition mirrors one function (or the relevant part of
one function) of the source; doc comments name the source symbol.
Strings are modelled as Lean strings, paths as lists of components,
machine-level I/O (the LLM, HTTP probes, the websocket transport) as
explicit oracle arguments so every definition is executable.
-/

namespace ServerGem

/-- Substring test over character lists: true when p occurs contiguously
inside l.  Models the Python expression p in s on strings. -/
def substrOf (p l : List Char) : Bool :=
  l.tails.any fun t => p.isPrefixOf t

/-- String-level wrapper of substrOf: pat occurs inside text. -/
def strContains (text pat : String) : Bool :=
  substrOf pat.toList text.toList

/-- Error keywords treated as transient network failures
(orchestrator.py, in the method that retries with backoff). -/
def networkKeywords : List String :=
  ["connection aborted", "connection refused", "timeout",
   "unavailable", "iocp", "socket", "503", "502", "504"]

/-- Error keywords treated as quota exhaustion
(orchestrator.py, in the method that sends with fallback). -/
def quotaKeywords : List String :=
  ["resource exhausted", "429", "quota", "rate limit"]

/-- Lowercased character list of a string; models the Python lower()
call applied before keyword matching. -/
def lowerChars (s : String) : List Char :=
  s.toList.map Char.toLower

/-- Classification of an error message as a network error: some keyword
occurs in the lowercased text.  Mirrors is_network_error. -/
def isNetworkError (e : String) : Bool :=
  networkKeywords.any fun k => substrOf k.toList (lowerChars e)

/-- Classification of an error message as a quota error: some keyword
occurs in the lowercased text.  Mirrors is_quota_error. -/
def isQuotaError (e : String) : Bool :=
  quotaKeywords.any fun k => substrOf k.toList (lowerChars e)

/-- Observable trace of one call to the retry helper: the final result,
how many times the wrapped function was invoked, and the sleeps (in
seconds) taken between invocations. -/
structure RetryTrace (α : Type) where
  result : Except String α
  attemptsMade : Nat
  delays : List Nat
  deriving Repr

/-- Loop body of the retry helper.  fuel is the number of loop
iterations still allowed (max_retries minus attempt); the condition
fuel = 0 inside the branch corresponds to attempt = max_retries - 1. -/
def retryAux (outcomes : Nat → Except String α) (baseDelay : Nat) :
    Nat → Nat → RetryTrace α
  | attempt, 0 => ⟨.error "Max retries exceeded for network operation", attempt, []⟩
  | attempt, fuel + 1 =>
    match outcomes attempt with
    | .ok a => ⟨.ok a, attempt + 1, []⟩
    | .error e =>
      if isNetworkError e = false ∨ fuel = 0 then ⟨.error e, attempt + 1, []⟩
      else
        let r := retryAux outcomes baseDelay (attempt + 1) fuel
        ⟨r.result, r.attemptsMade, baseDelay * 2 ^ attempt :: r.delays⟩

/-- Embedding of the retry-with-backoff helper of the orchestrator:
invoke the function up to maxRetries times; an error whose lowercased
text matches no network keyword, or an error on the final attempt, is
propagated; otherwise sleep baseDelay * 2 ^ attempt and retry.
outcomes n is the result of invocation number n. -/
def retryWithBackoff (outcomes : Nat → Except String α)
    (maxRetries baseDelay : Nat) : RetryTrace α :=
  retryAux outcomes baseDelay 0 maxRetries

/-- The retry configuration used for the primary user-message send
inside the send-with-fallback method: max_retries = 2, base_delay = 1. -/
def llmPrimarySendRetry (outcomes : Nat → Except String Unit) : RetryTrace Unit :=
  retryWithBackoff outcomes 2 1

/-- The retry configuration used when the function result is sent back
to the model in process_message: max_retries = 3, base_delay = 2. -/
def toolResponseSendRetry (outcomes : Nat → Except String Unit) : RetryTrace Unit :=
  retryWithBackoff outcomes 3 2

/-- The two LLM endpoints fronted by the orchestrator: Vertex AI is the
primary, the Gemini API (google.generativeai) the backup. -/
inductive Endpoint where
  | primary
  | backup
  deriving Repr, DecidableEq

/-- The mutable broker state held on the orchestrator: the use_vertex_ai
flag, whether a Gemini API key was configured, which endpoint the
current model / chat_session lives on, and an identifier of the current
chat-session object (bumped whenever a new history is constructed, so a
changed id means the prior history was discarded). -/
structure BrokerState where
  useVertexAi : Bool
  hasGeminiKey : Bool
  chatEndpoint : Endpoint
  chatId : Nat
  deriving Repr, DecidableEq

/-- Observable trace of one send-with-fallback call: the broker state
afterwards, the endpoints each outgoing request was issued to (in
order), and the final outcome. -/
structure SendTrace where
  newState : BrokerState
  requests : List Endpoint
  outcome : Except String Unit
  deriving Repr

/-- Embedding of the send-with-fallback method of the orchestrator.
primaryOutcomes feeds the retry wrapper around
chat_session.send_message (max_retries = 2, base_delay = 1);
backupOutcome is the result of the single send issued on a freshly
constructed backup chat when the quota fallback activates.  On a quota
error with use_vertex_ai set and a Gemini key configured, the broker
constructs a backup model and a fresh chat history, re-issues the
message there, and on success commits the switch permanently. -/
def sendWithFallbackCore (st : BrokerState) (r : RetryTrace Unit)
    (backupOutcome : Except String Unit) : SendTrace :=
  match r.result with
  | .ok _ => ⟨st, List.replicate r.attemptsMade st.chatEndpoint, .ok ()⟩
  | .error e =>
    if isQuotaError e then
      if st.useVertexAi && st.hasGeminiKey then
        match backupOutcome with
        | .ok _ =>
          ⟨{ useVertexAi := false, hasGeminiKey := st.hasGeminiKey,
             chatEndpoint := .backup, chatId := st.chatId + 1 },
           List.replicate r.attemptsMade st.chatEndpoint ++ [.backup], .ok ()⟩
        | .error fe =>
          ⟨st, List.replicate r.attemptsMade st.chatEndpoint ++ [.backup],
           .error ("Both Vertex AI and Gemini API failed. Gemini API error: " ++ fe)⟩
      else if !st.hasGeminiKey then
        ⟨st, List.replicate r.attemptsMade st.chatEndpoint,
         .error "Vertex AI quota exhausted. Please add a Gemini API key in Settings to continue."⟩
      else
        ⟨st, List.replicate r.attemptsMade st.chatEndpoint,
         .error "Gemini API quota exhausted. Please wait a few minutes and try again."⟩
    else ⟨st, List.replicate r.attemptsMade st.chatEndpoint, .error e⟩

/-- The full send path: the retry wrapper around the primary chat
session followed by the quota-fallback logic. -/
def sendWithFallback (st : BrokerState)
    (primaryOutcomes : Nat → Except String Unit)
    (backupOutcome : Except String Unit) : SendTrace :=
  sendWithFallbackCore st (retryWithBackoff primaryOutcomes 2 1) backupOutcome

/-- The oracle data of one send operation: outcomes of the primary-side
attempts and of the backup send, were they to be issued. -/
structure SendInput where
  outcomes : Nat → Except String Unit
  backupOutcome : Except String Unit

/-- Run a sequence of send operations through the broker, collecting
the endpoints of every outgoing request. -/
def runSends (st : BrokerState) : List SendInput → BrokerState × List Endpoint
  | [] => (st, [])
  | i :: rest =>
    let t := sendWithFallback st i.outcomes i.backupOutcome
    let (stFin, reqs) := runSends t.newState rest
    (stFin, t.requests ++ reqs)

/-- One environment-variable entry as stored in the project context by
the websocket endpoint: a value and a secret flag. -/
structure EnvEntry where
  value : String
  isSecret : Bool
  deriving Repr, DecidableEq

/-- The per-session project context owned by the orchestrator.  The
Python source keeps a free-form dict; the fields here are the keys the
orchestrator reads and writes (an Option none models an absent key). -/
structure ProjectContext where
  project_path : Option String
  repo_url : Option String
  branch : Option String
  framework : Option String
  env_vars : List (String × EnvEntry)
  deriving Repr, DecidableEq

/-- Emptiness of the context dict (the Python truthiness test on it). -/
def ProjectContext.isEmptyCtx (ctx : ProjectContext) : Bool :=
  ctx.project_path.isNone && ctx.repo_url.isNone && ctx.branch.isNone &&
    ctx.framework.isNone && ctx.env_vars.isEmpty

/-- The whitelist of short command literals recognized by
process_message for minimal context injection. -/
def simpleKeywords : List String :=
  ["deploy", "yes", "no", "skip", "proceed", "continue", "ok", "okay", "start", "go"]

/-- Whitespace trimming at both ends of a character list; models the
Python strip() call. -/
def trimChars (l : List Char) : List Char :=
  ((l.dropWhile Char.isWhitespace).reverse.dropWhile Char.isWhitespace).reverse

/-- Whether the user message, lowercased and stripped, equals one of the
whitelisted simple commands.  Mirrors is_simple_command. -/
def isSimpleCommandMsg (m : String) : Bool :=
  simpleKeywords.any fun k => trimChars (lowerChars m) == k.toList

/-- Truthiness of project_context.get, the test used before choosing
the minimal ready marker: the key is present and non-empty. -/
def pathTruthy (ctx : ProjectContext) : Bool :=
  match ctx.project_path with
  | some s => !s.isEmpty
  | none => false

/-- Comma-space join of a list of strings, as the Python join call. -/
def joinComma : List String → String
  | [] => ""
  | [s] => s
  | s :: rest => s ++ ", " ++ joinComma rest

/-- Embedding of the context-building method of the orchestrator
(source symbol: the underscore-prefixed build-context method): when the
context dict is non-empty and holds a project path, produce the CTX
line with the path, the STATE directive steering the model toward
deploy, and optional framework and env-var count entries. -/
def buildContextHeader (ctx : ProjectContext) : String :=
  if ctx.isEmptyCtx then ""
  else
    let parts : List String :=
      match ctx.project_path with
      | none => []
      | some p =>
        ("Project Path: " ++ p) :: "STATE: READY - Use deploy_to_cloudrun" ::
          ((match ctx.framework with
            | some f => ["Framework: " ++ f]
            | none => []) ++
           (if !ctx.env_vars.isEmpty then
              ["Env: " ++ toString ctx.env_vars.length ++ " vars stored"]
            else []))
    if parts.isEmpty then "" else "CTX: " ++ joinComma parts

/-- The message actually sent to the model by process_message: the
minimal ready marker for whitelisted simple commands when a working
copy is present, otherwise the full context-prefixed message. -/
def enhancedMessage (ctx : ProjectContext) (m : String) : String :=
  if isSimpleCommandMsg m && pathTruthy ctx then "Ready. User: " ++ m
  else
    let cp := buildContextHeader ctx
    if cp.isEmpty then m else cp ++ "\n\nUser: " ++ m

/-- The four concrete function handlers of the orchestrator. -/
inductive DeployFunction where
  | cloneAndAnalyze
  | deployToCloudrun
  | listUserRepositories
  | getDeploymentLogs
  deriving Repr, DecidableEq

/-- Result of routing one model function call. -/
inductive RouteResult where
  | invoke (f : DeployFunction)
  | unknownFunctionError (name : String)
  deriving Repr, DecidableEq

/-- Embedding of the function-routing method of the orchestrator
(source symbol: the underscore-prefixed handle-function-call method):
the handlers dict keyed by function name.  The orchestrator state (its
project context) is in scope but the routing never consults it. -/
def handleFunctionCall (ctx : ProjectContext) (name : String) : RouteResult :=
  if name = "clone_and_analyze_repo" then .invoke .cloneAndAnalyze
  else if name = "deploy_to_cloudrun" then .invoke .deployToCloudrun
  else if name = "list_user_repositories" then .invoke .listUserRepositories
  else if name = "get_deployment_logs" then .invoke .getDeploymentLogs
  else .unknownFunctionError name

/-- The status codes accepted by default by
HealthCheckService.wait_for_service_ready (health_check.py). -/
def defaultExpectedStatusCodes : List Nat :=
  [200, 204, 301, 302]

/-- Embedding of the retry loop of wait_for_service_ready: each list
entry is the outcome of one attempt (none models a request exception,
some s a response with status s); the loop stops successfully at the
first attempt whose status is in the expected list, and reports failure
once the attempts are exhausted. -/
def waitForServiceReadyLoop (expected : List Nat) : List (Option Nat) → Bool
  | [] => false
  | some s :: rest =>
    if expected.contains s then true else waitForServiceReadyLoop expected rest
  | none :: rest => waitForServiceReadyLoop expected rest

/-- Embedding of the polling loop of the deployment-health verifier in
gcloud_service.py (source symbol: the underscore-prefixed
verify-deployment-health method): each entry is one endpoint probe
within the verification window; the first response with status < 500
makes the service healthy (the status is returned); 5xx responses and
request exceptions keep polling; an exhausted window is unhealthy. -/
def verifyDeploymentHealthLoop : List (Option Nat) → Option Nat
  | [] => none
  | some s :: rest => if s < 500 then some s else verifyDeploymentHealthLoop rest
  | none :: rest => verifyDeploymentHealthLoop rest

/-- Replace underscores by hyphens, character by character; models the
Python replace call used on service names. -/
def underscoreToHyphen (c : Char) : Char :=
  if c = '_' then '-' else c

/-- Split a character list on the slash separator, as the Python split
call: the result is never empty and concatenating the pieces with
slashes restores the input. -/
def splitOnSlash : List Char → List (List Char)
  | [] => [[]]
  | c :: rest =>
    if c = '/' then [] :: splitOnSlash rest
    else
      match splitOnSlash rest with
      | [] => [[c]]
      | s :: ss => (c :: s) :: ss

/-- The last piece of the slash split, as the Python index -1. -/
def lastSegment (l : List Char) : List Char :=
  (splitOnSlash l).getLastD []

/-- Remove every occurrence of the substring .git, scanning left to
right without overlap; models the Python replace of .git by the empty
string. -/
def removeDotGit : List Char → List Char
  | [] => []
  | '.' :: 'g' :: 'i' :: 't' :: rest => removeDotGit rest
  | c :: rest => c :: removeDotGit rest

/-- Service-name derivation in the deploy handler of the orchestrator:
last path segment of the repo url, .git removed, underscores replaced
by hyphens, lowercased. -/
def deriveServiceName (url : List Char) : List Char :=
  ((removeDotGit (lastSegment url)).map underscoreToHyphen).map Char.toLower

/-- Unique service name computed in deploy_to_cloudrun: optional user-id
prefix joined with a hyphen, lowercased, underscores replaced by
hyphens, truncated to 63 characters. -/
def uniqueServiceName (userId : Option (List Char)) (serviceName : List Char) : List Char :=
  let combined :=
    match userId with
    | some u => u ++ '-' :: serviceName
    | none => serviceName
  ((combined.map Char.toLower).map underscoreToHyphen).take 63

/-- Lowercase ASCII letter test. -/
def isLowerAlphaChar (c : Char) : Bool :=
  (97 ≤ c.toNat) && (c.toNat ≤ 122)

/-- A character allowed by the platform service-name rules. -/
def validServiceChar (c : Char) : Bool :=
  isLowerAlphaChar c || c.isDigit || (c == '-')

/-- Modelled from the spec: the platform rules for service names in
section 6 - lowercase letters, digits and hyphens only, starting with a
letter, at most 63 characters.  This predicate follows the words of the
spec; the code never enforces it. -/
def validServiceName (n : List Char) : Bool :=
  decide (n.length ≤ 63) &&
    (match n with
     | [] => false
     | c :: _ => isLowerAlphaChar c) &&
    n.all validServiceChar

/-- The spec-side derivation of the service name: lowercase of the
hyphenated repo base name X (spec wording, for comparison with the
code-side derivation). -/
def specDerivedName (base : List Char) : List Char :=
  (base.map underscoreToHyphen).map Char.toLower

/-- File structure collected by the directory scan of the analyzer:
relative file paths and the subset recognized as config files. -/
structure FileStructure where
  files : List String
  config_files : List String
  deriving Repr, DecidableEq

/-- The analysis record produced by the analyzer (the JSON shape the
model is asked to return, plus the statically merged fields). -/
structure AnalysisRecord where
  language : String
  framework : String
  entry_point : Option String
  port : Nat
  dependencies : List String
  database : Option String
  build_tool : Option String
  start_command : Option String
  env_vars : List String
  dockerfile_exists : Bool
  recommendations : List String
  warnings : List String
  deriving Repr, DecidableEq

/-- First Python entry file present among app.py, main.py, manage.py,
as in the fallback detection loop. -/
def firstPyEntry (files : List String) : Option String :=
  ["app.py", "main.py", "manage.py"].find? fun f => files.contains f

/-- Embedding of the static fallback of the analyzer (source symbol:
the underscore-prefixed fallback-analysis method).  packageDeps is the
dependency-name list parsed from package.json, none when the file is
unreadable or unparseable. -/
def fallbackAnalysis (fs : FileStructure) (envVars : List String)
    (dockerfileExists : Bool) (packageDeps : Option (List String)) : AnalysisRecord :=
  let base : AnalysisRecord :=
    { language := "unknown", framework := "unknown", entry_point := none,
      port := 8080, dependencies := [], database := none, build_tool := none,
      start_command := none, env_vars := [], dockerfile_exists := false,
      recommendations :=
        ["Unable to fully analyze project - manual configuration may be needed"],
      warnings := ["Automated analysis failed - using fallback detection"] }
  let detected :=
    if fs.config_files.contains "package.json" then
      let withLang := { base with language := "nodejs", build_tool := some "npm" }
      match packageDeps with
      | some deps =>
        if deps.contains "express" then { withLang with framework := "express" }
        else if deps.contains "next" then { withLang with framework := "nextjs" }
        else withLang
      | none => withLang
    else if fs.config_files.contains "requirements.txt" then
      { base with
          language := "python"
          build_tool := some "pip"
          entry_point := firstPyEntry fs.files }
    else if fs.config_files.contains "go.mod" then
      { base with
          language := "golang"
          build_tool := some "go"
          entry_point := some "main.go" }
    else base
  { detected with env_vars := envVars, dockerfile_exists := dockerfileExists }

/-- Result of analyze_project: either the early error record for a
missing path, or an analysis record. -/
inductive AnalyzeResult where
  | errorPath
  | analysis (a : AnalysisRecord)
  deriving Repr, DecidableEq

/-- Embedding of analyze_project (code_analyzer.py): classification is
the outcome of the LLM step, none covering every failure mode caught by
the method (no text in the response, unparseable JSON, terminal model
error, failed backup).  On success the statically extracted env vars
and the recipe-exists flag are merged in; on failure the static
fallback record is returned; the function never fails. -/
def analyzeProject (pathExists : Bool) (fs : FileStructure)
    (classification : Option AnalysisRecord) (envVars : List String)
    (dockerfileExists : Bool) (packageDeps : Option (List String)) : AnalyzeResult :=
  if !pathExists then .errorPath
  else
    match classification with
    | some a =>
      .analysis { a with env_vars := envVars, dockerfile_exists := dockerfileExists }
    | none => .analysis (fallbackAnalysis fs envVars dockerfileExists packageDeps)

/-- Language of an analyze_project result, when it produced one. -/
def AnalyzeResult.languageOf : AnalyzeResult → Option String
  | .errorPath => none
  | .analysis a => some a.language

/-- The directory names excluded by the analyzer scan. -/
def excludeDirs : List String :=
  ["node_modules", "venv", "__pycache__", ".git",
   "dist", "build", "target", "vendor"]

/-- Embedding of the directory scan of the analyzer (source symbol: the
underscore-prefixed scan-directory method).  Each item is the component
list of one file path under the project root.  The source accepts a
max_depth parameter defaulting to 3 but its body never consults it: the
walk keeps every file whose path has no excluded component, at any
depth. -/
def scanDirectoryFiles (_maxDepth : Nat) (items : List (List String)) : List (List String) :=
  items.filter fun parts => !(excludeDirs.any fun d => parts.contains d)

/-- Directory nesting depth of a file path given as components: the
number of directories above the file name. -/
def dirDepth (parts : List String) : Nat :=
  parts.length - 1

/-- The orchestrator reference stored per session by the websocket
gateway: an instance identity and the project context it owns. -/
structure OrchestratorRef where
  instanceId : Nat
  projectContext : ProjectContext
  deriving Repr, DecidableEq

/-- The two process-wide registries of app.py: session id to live
transport (modelled by a transport id) and session id to orchestrator. -/
structure GatewayState where
  activeConnections : List (String × Nat)
  sessionOrchestrators : List (String × OrchestratorRef)
  deriving Repr, DecidableEq

/-- Events on the registries: a (re)connect installing a transport and
reusing or creating the orchestrator, and the disconnect cleanup of the
websocket endpoint. -/
inductive GatewayEvent where
  | connect (sid : String) (transportId : Nat) (fresh : OrchestratorRef)
  | cleanup (sid : String)
  deriving Repr

/-- Remove a key from an association list (the del statement on a
Python dict, a no-op when the key is absent). -/
def eraseKey (m : List (String × α)) (k : String) : List (String × α) :=
  m.filter fun p => p.1 != k

/-- Embedding of the registry mutations of websocket_endpoint: connect
replaces the transport binding and reuses an existing orchestrator for
the session (creating one only when absent); the disconnect cleanup
deletes the transport binding and leaves session_orchestrators alone
(the source comments this explicitly). -/
def gatewayStep (st : GatewayState) : GatewayEvent → GatewayState
  | .connect sid t fresh =>
    { activeConnections := (sid, t) :: eraseKey st.activeConnections sid,
      sessionOrchestrators :=
        match st.sessionOrchestrators.lookup sid with
        | some _ => st.sessionOrchestrators
        | none => (sid, fresh) :: st.sessionOrchestrators }
  | .cleanup sid =>
    { activeConnections := eraseKey st.activeConnections sid,
      sessionOrchestrators := st.sessionOrchestrators }

/-- Run a sequence of gateway events. -/
def gatewayRun (st : GatewayState) : List GatewayEvent → GatewayState
  | [] => st
  | e :: es => gatewayRun (gatewayStep st e) es

/-- The skip patterns of the source-tarball builder in
gcloud_service.py: a file is skipped when any pattern occurs as a
substring anywhere in its relative path string. -/
def tarSkipPatterns : List String :=
  [".git", "__pycache__", "node_modules", ".env", ".venv", "venv"]

/-- Whether the tarball builder skips a relative path. -/
def tarExcluded (relPath : String) : Bool :=
  tarSkipPatterns.any fun p => substrOf p.toList relPath.toList

/-- Embedding of the tarball content selection (source symbol: the
underscore-prefixed create-source-tarball method): the relative paths
added to the uploaded archive. -/
def createSourceTarball (files : List String) : List String :=
  files.filter fun f => !(tarExcluded f)

/-- Conversion of context env-var entries to the plain name-to-value
map passed to the deploy call, as in the deploy handler of the
orchestrator: the secret flag is dropped. -/
def contextEnvToPlain (ctxEnv : List (String × EnvEntry)) : List (String × String) :=
  ctxEnv.map fun p => (p.1, p.2.value)

/-- The env vars the deploy handler passes to deploy_to_cloudrun: mirror
of the Python truthiness logic - an explicit non-empty argument wins,
otherwise the context entries are flattened, otherwise the empty map. -/
def resolveDeployEnvVars (envArg : Option (List (String × String)))
    (ctxEnv : List (String × EnvEntry)) : List (String × String) :=
  match envArg with
  | some l =>
    if !l.isEmpty then l
    else if !ctxEnv.isEmpty then contextEnvToPlain ctxEnv
    else []
  | none => if !ctxEnv.isEmpty then contextEnvToPlain ctxEnv else []

/-- A plain-text environment variable on the Cloud Run container, as
constructed by deploy_to_cloudrun. -/
structure CloudRunEnvVar where
  name : String
  value : String
  deriving Repr, DecidableEq

/-- The container env block built by deploy_to_cloudrun from the env
map: every entry becomes a plain-text EnvVar. -/
def containerEnvOf (envVars : List (String × String)) : List CloudRunEnvVar :=
  envVars.map fun p => ⟨p.1, p.2⟩

theorem substrOf_iff (p l : List Char) :
    substrOf p l = true ↔ ∃ pre post, l = pre ++ p ++ post := by
  constructor
  · intro h
    rcases List.any_eq_true.mp h with ⟨t, ht, hp⟩
    rcases (List.mem_tails _ _).mp ht with ⟨pre, hpre⟩
    rcases List.isPrefixOf_iff_prefix.mp hp with ⟨post, hpost⟩
    exact ⟨pre, post, by rw [← hpre, ← hpost, List.append_assoc]⟩
  · rintro ⟨pre, post, rfl⟩
    refine List.any_eq_true.mpr ⟨p ++ post, ?_, ?_⟩
    · exact (List.mem_tails _ _).mpr ⟨pre, by rw [List.append_assoc]⟩
    · exact List.isPrefixOf_iff_prefix.mpr ⟨post, rfl⟩

/-- One send in the already-switched state touches only the backup:
the state is unchanged and every request goes to the backup endpoint. -/
theorem sendWithFallbackCore_switched (st : BrokerState) (r : RetryTrace Unit)
    (b : Except String Unit) (hv : st.useVertexAi = false)
    (he : st.chatEndpoint = .backup) :
    (sendWithFallbackCore st r b).newState = st ∧
      ∀ x ∈ (sendWithFallbackCore st r b).requests, x = Endpoint.backup := by
  have hrep : ∀ x ∈ List.replicate r.attemptsMade st.chatEndpoint, x = Endpoint.backup := by
    intro x hx
    rw [he] at hx
    exact List.eq_of_mem_replicate hx
  obtain ⟨res, n, d⟩ := r
  cases res with
  | ok a => exact ⟨rfl, hrep⟩
  | error e =>
    by_cases hq : isQuotaError e <;> by_cases hk : st.hasGeminiKey <;>
      simp_all [sendWithFallbackCore]

/-- One send in the already-switched state touches only the backup:
the state is unchanged and every request goes to the backup endpoint. -/
theorem sendWithFallback_switched (st : BrokerState) (o : Nat → Except String Unit)
    (b : Except String Unit) (hv : st.useVertexAi = false)
    (he : st.chatEndpoint = .backup) :
    (sendWithFallback st o b).newState = st ∧
      ∀ r ∈ (sendWithFallback st o b).requests, r = Endpoint.backup :=
  sendWithFallbackCore_switched st (retryWithBackoff o 2 1) b hv he

/-- In the switched state, any sequence of further sends leaves the
broker on the backup and issues every request to the backup. -/
theorem runSends_switched (sends : List SendInput) (st : BrokerState)
    (hv : st.useVertexAi = false) (he : st.chatEndpoint = .backup) :
    (runSends st sends).1 = st ∧
      ∀ r ∈ (runSends st sends).2, r = Endpoint.backup := by
  induction sends generalizing st with
  | nil => exact ⟨rfl, by simp [runSends]⟩
  | cons i rest ih =>
    have h1 := sendWithFallback_switched st i.outcomes i.backupOutcome hv he
    have h2 := ih (sendWithFallback st i.outcomes i.backupOutcome).newState
      (by rw [h1.1]; exact hv) (by rw [h1.1]; exact he)
    refine ⟨?_, ?_⟩
    · simp only [runSends]
      rw [h1.1] at h2 ⊢
      exact h2.1
    · intro r hrm
      simp only [runSends, List.mem_append] at hrm
      rcases hrm with hrm | hrm
      · exact h1.2 r hrm
      · exact h2.2 r hrm

/-- The only way a send can clear use_vertex_ai is by committing the
quota failover, and the committed state is exactly the switched one:
on the backup endpoint with a freshly constructed chat history. -/
theorem sendWithFallbackCore_switch_shape (st : BrokerState) (r : RetryTrace Unit)
    (b : Except String Unit) (hv : st.useVertexAi = true)
    (hsw : (sendWithFallbackCore st r b).newState.useVertexAi = false) :
    (sendWithFallbackCore st r b).newState =
      { useVertexAi := false, hasGeminiKey := st.hasGeminiKey,
        chatEndpoint := .backup, chatId := st.chatId + 1 } := by
  obtain ⟨res, n, d⟩ := r
  cases res with
  | ok a => simp [sendWithFallbackCore, hv] at hsw
  | error e =>
    by_cases hq : isQuotaError e <;> by_cases hk : st.hasGeminiKey <;>
      cases b <;> simp_all [sendWithFallbackCore]

/-- C3: once a send has hit a quota error and failed over to the backup
endpoint (the backup being configured and not yet active), the switch is
permanent: the re-issued message runs on a freshly constructed chat
history (the chat-session id is bumped), every request of every
subsequent send in the session goes to the backup endpoint, and the
broker never returns to the primary. -/
theorem claim_C3_failover_permanent
    (st : BrokerState) (i : SendInput) (sends : List SendInput)
    (hv : st.useVertexAi = true)
    (hsw : (sendWithFallback st i.outcomes i.backupOutcome).newState.useVertexAi = false) :
    (sendWithFallback st i.outcomes i.backupOutcome).newState.chatEndpoint = Endpoint.backup ∧
    (sendWithFallback st i.outcomes i.backupOutcome).newState.chatId = st.chatId + 1 ∧
    (∀ r ∈ (runSends (sendWithFallback st i.outcomes i.backupOutcome).newState sends).2,
      r = Endpoint.backup) ∧
    (runSends (sendWithFallback st i.outcomes i.backupOutcome).newState sends).1.useVertexAi
      = false ∧
    (runSends (sendWithFallback st i.outcomes i.backupOutcome).newState sends).1.chatEndpoint
      = Endpoint.backup := by
  have hshape :
      (sendWithFallback st i.outcomes i.backupOutcome).newState =
        { useVertexAi := false, hasGeminiKey := st.hasGeminiKey,
          chatEndpoint := .backup, chatId := st.chatId + 1 } :=
    sendWithFallbackCore_switch_shape st (retryWithBackoff i.outcomes 2 1)
      i.backupOutcome hv hsw
  rw [hshape]
  have hrun := runSends_switched sends
    { useVertexAi := false, hasGeminiKey := st.hasGeminiKey,
      chatEndpoint := .backup, chatId := st.chatId + 1 } rfl rfl
  exact ⟨rfl, rfl, hrun.2, by rw [hrun.1], by rw [hrun.1]⟩

theorem strToList_append (a b : String) :
    (a ++ b).toList = a.toList ++ b.toList := by
  obtain ⟨la⟩ := a
  obtain ⟨lb⟩ := b
  rfl

theorem joinComma_cons (s : String) (rest : List String) :
    ∃ t, joinComma (s :: rest) = s ++ t := by
  cases rest with
  | nil => exact ⟨"", by simp [joinComma]⟩
  | cons r rs =>
    refine ⟨", " ++ joinComma (r :: rs), ?_⟩
    show joinComma (s :: r :: rs) = _
    simp only [joinComma]
    obtain ⟨ls⟩ := s
    obtain ⟨lc⟩ := (", " : String)
    obtain ⟨lj⟩ := joinComma (r :: rs)
    show String.mk ((ls ++ lc) ++ lj) = String.mk (ls ++ (lc ++ lj))
    rw [List.append_assoc]

theorem strContains_stateReady (p : String) (rest : List String) :
    strContains
      ("CTX: " ++ joinComma (("Project Path: " ++ p) ::
        "STATE: READY - Use deploy_to_cloudrun" :: rest))
      "STATE: READY - Use deploy_to_cloudrun" = true := by
  obtain ⟨t, ht⟩ := joinComma_cons "STATE: READY - Use deploy_to_cloudrun" rest
  have hj : joinComma (("Project Path: " ++ p) ::
      "STATE: READY - Use deploy_to_cloudrun" :: rest) =
      ("Project Path: " ++ p) ++ ", " ++
        joinComma ("STATE: READY - Use deploy_to_cloudrun" :: rest) := by
    simp only [joinComma]
  rw [hj, ht]
  unfold strContains
  apply (substrOf_iff _ _).mpr
  refine ⟨("CTX: " ++ (("Project Path: " ++ p) ++ ", ")).toList, t.toList, ?_⟩
  simp [strToList_append, List.append_assoc]

/-- C1 counterexample: with a working-copy path already present in the
project context, the function-routing boundary still dispatches a
model-requested clone_and_analyze_repo call to the clone-and-analyze
handler - nothing at the routing boundary blocks a re-clone. -/
theorem claim_C1_cex :
    handleFunctionCall
      { project_path := some "/tmp/servergem/app",
        repo_url := some "https://example.org/u/app.git",
        branch := some "main", framework := some "flask", env_vars := [] }
      "clone_and_analyze_repo" = .invoke .cloneAndAnalyze := by
  rfl

/-- C1 (amended): the routing boundary does not enforce the anti-reclone
invariant - routing a function call is independent of the project
context, and clone_and_analyze_repo is always dispatched to the clone
handler, even when a working-copy path is present.  Re-cloning is
discouraged only through prompt engineering: for a whitelisted simple
command with a working copy present the model receives the minimal
ready marker, and the full context prefix contains the STATE directive
steering the model toward deploy. -/
theorem claim_C1_reclone_not_blocked (ctx : ProjectContext) (p m : String)
    (hp : ctx.project_path = some p) (hpe : p ≠ "")
    (hm : isSimpleCommandMsg m = true) :
    handleFunctionCall ctx "clone_and_analyze_repo" = .invoke .cloneAndAnalyze ∧
    (∀ ctx2 name, handleFunctionCall ctx name = handleFunctionCall ctx2 name) ∧
    enhancedMessage ctx m = "Ready. User: " ++ m ∧
    strContains (buildContextHeader ctx)
      "STATE: READY - Use deploy_to_cloudrun" = true := by
  refine ⟨rfl, fun ctx2 name => rfl, ?_, ?_⟩
  · have hie : p.isEmpty = false := by
      cases he : p.isEmpty
      · rfl
      · exact absurd ((String.isEmpty_iff p).mp he) hpe
    simp [enhancedMessage, hm, pathTruthy, hp, hie]
  · have hne : ctx.isEmptyCtx = false := by
      simp [ProjectContext.isEmptyCtx, hp]
    simp only [buildContextHeader, hne, Bool.false_eq_true, if_false, hp,
      List.isEmpty_cons]
    exact strContains_stateReady p _

/-- Witness for C1 at a concrete context and the simple command deploy. -/
theorem claim_C1_reclone_not_blocked_witness :
    enhancedMessage
        { project_path := some "/tmp/repo", repo_url := none, branch := none,
          framework := none, env_vars := [] } "deploy"
      = "Ready. User: deploy" ∧
    strContains
      (buildContextHeader
        { project_path := some "/tmp/repo", repo_url := none, branch := none,
          framework := none, env_vars := [] })
      "STATE: READY - Use deploy_to_cloudrun" = true := by
  have h := claim_C1_reclone_not_blocked
    { project_path := some "/tmp/repo", repo_url := none, branch := none,
      framework := none, env_vars := [] }
    "/tmp/repo" "deploy" rfl (by decide) (by decide)
  exact ⟨h.2.2.1, h.2.2.2⟩

/-- C9: the source tarball excludes every file whose relative path
contains one of the skip patterns as a substring, wherever in the path
the pattern occurs. -/
theorem claim_C9_tar_excludes (files : List String) (f pat : String)
    (hpat : pat ∈ tarSkipPatterns) (pre post : List Char)
    (hdecomp : f.toList = pre ++ pat.toList ++ post) :
    f ∉ createSourceTarball files := by
  intro hmem
  have hex : tarExcluded f = true :=
    List.any_eq_true.mpr ⟨pat, hpat, (substrOf_iff _ _).mpr ⟨pre, post, hdecomp⟩⟩
  have := (List.mem_filter.mp hmem).2
  rw [hex] at this
  cases this

/-- Witness for C9: the file config.envelope.js is omitted from the
upload because its path contains the .env pattern. -/
theorem claim_C9_tar_excludes_witness :
    "config.envelope.js" ∉ createSourceTarball ["config.envelope.js", "app.js"] :=
  claim_C9_tar_excludes ["config.envelope.js", "app.js"] "config.envelope.js"
    ".env" (by decide) "config".toList "elope.js".toList (by decide)

/-- C10: when deploy is invoked without an explicit env_vars argument,
the values stored in the project context are flattened to a plain
name-to-value map - the per-entry secret flag is discarded (the result
is invariant under arbitrary changes of the flags), and the container
receives every entry as a plain-text environment variable. -/
theorem claim_C10_env_vars_plain (ctxEnv : List (String × EnvEntry))
    (flip : String → Bool → Bool) :
    resolveDeployEnvVars none ctxEnv = contextEnvToPlain ctxEnv ∧
    resolveDeployEnvVars none
        (ctxEnv.map fun p => (p.1, ⟨p.2.value, flip p.1 p.2.isSecret⟩)) =
      resolveDeployEnvVars none ctxEnv ∧
    containerEnvOf (resolveDeployEnvVars none ctxEnv) =
      ctxEnv.map fun p => ⟨p.1, p.2.value⟩ := by
  refine ⟨?_, ?_, ?_⟩
  · cases ctxEnv with
    | nil => rfl
    | cons a l => simp [resolveDeployEnvVars, contextEnvToPlain]
  · cases ctxEnv with
    | nil => rfl
    | cons a l => simp [resolveDeployEnvVars, contextEnvToPlain]
  · cases ctxEnv with
    | nil => rfl
    | cons a l =>
      simp [resolveDeployEnvVars, contextEnvToPlain, containerEnvOf]

/-- C5 counterexample: with a package.json manifest present, a failed
LLM classification produces the static fallback whose language is
nodejs, not unknown. -/
theorem claim_C5_cex :
    (analyzeProject true ⟨["app.js"], ["package.json"]⟩ none [] false
        (some ["express"])).languageOf = some "nodejs" ∧
    ("nodejs" : String) ≠ "unknown" := by
  decide

/-- C5 (amended): analyze_project never fails outward - whenever the
LLM classification fails it returns the deterministic static fallback
record, which always records the fallback warning; its language is
unknown exactly when none of the known manifests (package.json,
requirements.txt, go.mod) is among the collected config files, and
otherwise is the statically detected language. -/
theorem claim_C5_fallback_record (fs : FileStructure) (envVars : List String)
    (dx : Bool) (deps : Option (List String)) :
    analyzeProject true fs none envVars dx deps =
      .analysis (fallbackAnalysis fs envVars dx deps) ∧
    (fallbackAnalysis fs envVars dx deps).warnings =
      ["Automated analysis failed - using fallback detection"] ∧
    ((fallbackAnalysis fs envVars dx deps).language = "unknown" ↔
      (fs.config_files.contains "package.json" = false ∧
       fs.config_files.contains "requirements.txt" = false ∧
       fs.config_files.contains "go.mod" = false)) := by
  refine ⟨rfl, ?_, ?_⟩
  · simp only [fallbackAnalysis]
    cases deps <;> split_ifs <;> (try simp_all) <;> (try split_ifs) <;>
      (try simp_all)
  · simp only [fallbackAnalysis]
    cases deps <;> split_ifs <;> (try simp_all) <;> (try split_ifs) <;>
      (try simp_all)

/-- C6: the directory scan of the analyzer accepts a depth bound of 3
but never applies it - a file nested four directories deep, with no
excluded component in its path, is still collected into the file
structure (while a file under an excluded directory is skipped).  This
contradicts the declared max_depth parameter of the scan. -/
theorem claim_C6_scan_depth_bug :
    scanDirectoryFiles 3 [["a", "b", "c", "d", "main.py"]] =
      [["a", "b", "c", "d", "main.py"]] ∧
    3 < dirDepth ["a", "b", "c", "d", "main.py"] ∧
    scanDirectoryFiles 3 [["node_modules", "x.js"]] = [] := by
  decide

theorem splitOnSlash_ne_nil (l : List Char) : splitOnSlash l ≠ [] := by
  cases l with
  | nil => simp [splitOnSlash]
  | cons c rest =>
    simp only [splitOnSlash]
    split
    · simp
    · cases h : splitOnSlash rest <;> simp

theorem getLastD_irrel (l : List α) (h : l ≠ []) (d1 d2 : α) :
    l.getLastD d1 = l.getLastD d2 := by
  cases l with
  | nil => exact absurd rfl h
  | cons a t => rw [List.getLastD_cons, List.getLastD_cons]

theorem splitOnSlash_two_le (l : List Char) (h : '/' ∈ l) :
    2 ≤ (splitOnSlash l).length := by
  induction l with
  | nil => cases h
  | cons c rest ih =>
    simp only [splitOnSlash]
    by_cases hc : c = '/'
    · rw [if_pos hc]
      cases hsp : splitOnSlash rest with
      | nil => exact absurd hsp (splitOnSlash_ne_nil rest)
      | cons s ss => simp
    · rw [if_neg hc]
      have hmem : '/' ∈ rest := by
        rcases List.mem_cons.mp h with h1 | h1
        · exact absurd h1.symm hc
        · exact h1
      have h2 := ih hmem
      cases hsp : splitOnSlash rest with
      | nil => exact absurd hsp (splitOnSlash_ne_nil rest)
      | cons s ss =>
        rw [hsp] at h2
        simp only [List.length_cons] at h2 ⊢
        omega

theorem lastSegment_append (pre seg : List Char) :
    lastSegment (pre ++ '/' :: seg) = lastSegment seg := by
  induction pre with
  | nil =>
    have hsp : splitOnSlash ('/' :: seg) = [] :: splitOnSlash seg := by
      simp [splitOnSlash]
    simp only [List.nil_append, lastSegment, hsp, List.getLastD_cons]
  | cons c pre ih =>
    rw [List.cons_append]
    by_cases hc : c = '/'
    · simp only [lastSegment, splitOnSlash, if_pos hc]
      rw [List.getLastD_cons]
      exact ih
    · simp only [lastSegment, splitOnSlash, if_neg hc]
      obtain ⟨s, ss, hsp⟩ : ∃ s ss, splitOnSlash (pre ++ '/' :: seg) = s :: ss := by
        cases h : splitOnSlash (pre ++ '/' :: seg) with
        | nil => exact absurd h (splitOnSlash_ne_nil _)
        | cons a b => exact ⟨a, b, rfl⟩
      rw [hsp]
      have hss : ss ≠ [] := by
        have h2 := splitOnSlash_two_le (pre ++ '/' :: seg) (by simp)
        rw [hsp] at h2
        simp only [List.length_cons] at h2
        intro hn
        subst hn
        simp at h2
      rw [List.getLastD_cons]
      have hpre := ih
      rw [lastSegment, hsp, List.getLastD_cons] at hpre
      rw [getLastD_irrel ss hss (c :: s) s]
      exact hpre

theorem splitOnSlash_no_slash (seg : List Char) (h : '/' ∉ seg) :
    splitOnSlash seg = [seg] := by
  induction seg with
  | nil => rfl
  | cons c rest ih =>
    have hc : ¬ c = '/' := fun hh => h (List.mem_cons.mpr (Or.inl hh.symm))
    have hrest : '/' ∉ rest := fun hm => h (List.mem_cons.mpr (Or.inr hm))
    simp only [splitOnSlash, if_neg hc, ih hrest]

theorem lastSegment_no_slash (seg : List Char) (h : '/' ∉ seg) :
    lastSegment seg = seg := by
  rw [lastSegment, splitOnSlash_no_slash seg h]
  rfl

theorem removeDotGit_cons_ne (c : Char) (l : List Char) (hc : c ≠ '.') :
    removeDotGit (c :: l) = c :: removeDotGit l := by
  rw [removeDotGit.eq_def]
  split
  · simp_all
  · rename_i hcontra
    injection hcontra with h1 h2
    exact absurd h1 hc
  · rename_i hcontra
    injection hcontra with h1 h2
    subst h1
    subst h2
    rfl

theorem removeDotGit_append (base : List Char) (h : '.' ∉ base) :
    removeDotGit (base ++ ['.', 'g', 'i', 't']) = base := by
  induction base with
  | nil =>
    simp only [List.nil_append]
    decide
  | cons c rest ih =>
    have hc : ¬ c = '.' := fun hh => h (List.mem_cons.mpr (Or.inl hh.symm))
    have hrest : '.' ∉ rest := fun hm => h (List.mem_cons.mpr (Or.inr hm))
    rw [List.cons_append, removeDotGit_cons_ne c _ hc, ih hrest]

/-- C7 counterexample: the repo 2048.git derives the service name 2048,
which violates the platform rule that a service name starts with a
letter; and for a base name containing .git as a substring
(a.gitb.git), the derived name differs from the lowercased hyphenated
base name, because the replace call removes every .git occurrence. -/
theorem claim_C7_cex :
    validServiceName (deriveServiceName "https://example.org/u/2048.git".toList)
      = false ∧
    deriveServiceName "https://example.org/u/2048.git".toList = "2048".toList ∧
    deriveServiceName "https://example.org/u/a.gitb.git".toList ≠
      specDerivedName "a.gitb".toList := by
  decide

/-- C7 (amended): for a repository URL whose last path segment is
base.git, where base contains neither a dot nor a slash, the service
name the orchestrator derives equals the base name lowercased with
underscores replaced by hyphens; the derivation does not enforce the
platform rules (the name may start with a digit, as the counterexample
shows), and the cloud layer truncates the final prefixed name to at
most 63 characters. -/
theorem claim_C7_service_name (pre base u n : List Char)
    (hdot : '.' ∉ base) (hslash : '/' ∉ base) :
    deriveServiceName (pre ++ '/' :: (base ++ ".git".toList)) =
      specDerivedName base ∧
    (uniqueServiceName (some u) n).length ≤ 63 ∧
    (uniqueServiceName none n).length ≤ 63 := by
  refine ⟨?_, ?_, ?_⟩
  · have hgit : ".git".toList = ['.', 'g', 'i', 't'] := by decide
    have h1 : lastSegment (pre ++ '/' :: (base ++ ".git".toList)) =
        base ++ ".git".toList := by
      rw [lastSegment_append]
      apply lastSegment_no_slash
      intro hm
      rcases List.mem_append.mp hm with hm | hm
      · exact hslash hm
      · rw [hgit] at hm
        simp at hm
    rw [deriveServiceName, h1, hgit, removeDotGit_append base hdot]
    rfl
  · exact List.length_take_le 63 _
  · exact List.length_take_le 63 _

/-- Witness for C7 at a concrete repository url with an underscore and
capital letters in the base name. -/
theorem claim_C7_service_name_witness :
    deriveServiceName
        ("https://example.org/u".toList ++ '/' ::
          ("My_App".toList ++ ".git".toList)) =
      specDerivedName "My_App".toList ∧
    (uniqueServiceName (some "deploy-a".toList) "my-app".toList).length ≤ 63 := by
  have h := claim_C7_service_name "https://example.org/u".toList "My_App".toList
    "deploy-a".toList "my-app".toList (by decide) (by decide)
  exact ⟨h.1, h.2.1⟩

theorem lookup_eraseKey_self (m : List (String × α)) (k : String) :
    (eraseKey m k).lookup k = none := by
  induction m with
  | nil => rfl
  | cons a rest ih =>
    obtain ⟨a1, a2⟩ := a
    by_cases h : a1 = k
    · have hb : (a1 != k) = false := by simp [h]
      simp only [eraseKey, List.filter_cons, hb, Bool.false_eq_true, if_false]
      exact ih
    · have hb : (a1 != k) = true := by simp [h]
      simp only [eraseKey, List.filter_cons, hb, if_true]
      have hk : (k == a1) = false := by simp [Ne.symm h]
      simp only [List.lookup, hk]
      exact ih

theorem gatewayStep_preserves_orch (st : GatewayState) (e : GatewayEvent)
    (sid : String) (o : OrchestratorRef)
    (h : st.sessionOrchestrators.lookup sid = some o) :
    (gatewayStep st e).sessionOrchestrators.lookup sid = some o := by
  cases e with
  | cleanup s => exact h
  | connect s t fresh =>
    simp only [gatewayStep]
    cases hl : st.sessionOrchestrators.lookup s with
    | some x => exact h
    | none =>
      have hne : (sid == s) = false := by
        by_cases hs : sid = s
        · subst hs
          rw [hl] at h
          cases h
        · simp [hs]
      simp only [List.lookup, hne]
      exact h

theorem gatewayRun_preserves_orch (events : List GatewayEvent)
    (st : GatewayState) (sid : String) (o : OrchestratorRef)
    (h : st.sessionOrchestrators.lookup sid = some o) :
    (gatewayRun st events).sessionOrchestrators.lookup sid = some o := by
  induction events generalizing st with
  | nil => exact h
  | cons e es ih =>
    exact ih (gatewayStep st e) (gatewayStep_preserves_orch st e sid o h)

/-- C8: the session-to-orchestrator binding survives any sequence of
connects and disconnect cleanups: the very same orchestrator (hence the
same working-copy path in its project context) is still bound to the
session id afterwards, and a cleanup removes only the
session-to-transport binding, never touching session_orchestrators. -/
theorem claim_C8_context_survives (st : GatewayState)
    (events : List GatewayEvent) (sid : String) (o : OrchestratorRef)
    (p : String) (hbind : st.sessionOrchestrators.lookup sid = some o)
    (hpath : o.projectContext.project_path = some p) :
    (gatewayRun st events).sessionOrchestrators.lookup sid = some o ∧
    o.projectContext.project_path = some p ∧
    (∀ s, (gatewayStep st (.cleanup s)).sessionOrchestrators =
      st.sessionOrchestrators) ∧
    (∀ s, (gatewayStep st (.cleanup s)).activeConnections.lookup s = none) := by
  refine ⟨gatewayRun_preserves_orch events st sid o hbind, hpath, ?_, ?_⟩
  · intro s
    rfl
  · intro s
    exact lookup_eraseKey_self st.activeConnections s

/-- Witness for C8 at a concrete registry: one bound session loses its
transport and reconnects with a new transport id; the original
orchestrator with its working copy is still bound. -/
theorem claim_C8_context_survives_witness :
    (gatewayRun
        ⟨[("s1", 1)],
         [("s1", ⟨7, { project_path := some "/tmp/repo", repo_url := none,
                       branch := none, framework := none, env_vars := [] }⟩)]⟩
        [.cleanup "s1",
         .connect "s1" 2 ⟨99, { project_path := none, repo_url := none,
                                branch := none, framework := none,
                                env_vars := [] }⟩]).sessionOrchestrators.lookup "s1"
      = some ⟨7, { project_path := some "/tmp/repo", repo_url := none,
                   branch := none, framework := none, env_vars := [] }⟩ :=
  (claim_C8_context_survives
    ⟨[("s1", 1)],
     [("s1", ⟨7, { project_path := some "/tmp/repo", repo_url := none,
                   branch := none, framework := none, env_vars := [] }⟩)]⟩
    [.cleanup "s1",
     .connect "s1" 2 ⟨99, { project_path := none, repo_url := none,
                            branch := none, framework := none,
                            env_vars := [] }⟩]
    "s1"
    ⟨7, { project_path := some "/tmp/repo", repo_url := none, branch := none,
          framework := none, env_vars := [] }⟩
    "/tmp/repo" (by decide) (by decide)).1

/-- C4 counterexample: the user-message LLM send is wrapped with
max_retries = 2, so a persistent matching error (timeout) yields
exactly 2 attempts, not the 3 attempts the claim states. -/
theorem claim_C4_cex :
    (llmPrimarySendRetry (fun _ => .error "timeout")).attemptsMade = 2 ∧
    (llmPrimarySendRetry (fun _ => .error "timeout")).attemptsMade ≠ 3 := by
  decide

/-- C4 (amended): an error not matching the transient keyword list
propagates immediately, on the first attempt, without retry; a
persistently matching error is retried with exponential backoff with
doubling delays, but the user-message send performs 2 attempts with
base delay 1 s (one 1 s sleep), and the tool-response send performs 3
attempts with base delay 2 s (sleeps 2 s then 4 s). -/
theorem claim_C4_retry_policy (outcomes : Nat → Except String Unit)
    (e : Nat → String) (herr : ∀ n, outcomes n = .error (e n)) :
    (isNetworkError (e 0) = false →
      llmPrimarySendRetry outcomes = ⟨.error (e 0), 1, []⟩ ∧
      toolResponseSendRetry outcomes = ⟨.error (e 0), 1, []⟩) ∧
    ((∀ n, isNetworkError (e n) = true) →
      llmPrimarySendRetry outcomes = ⟨.error (e 1), 2, [1]⟩ ∧
      toolResponseSendRetry outcomes = ⟨.error (e 2), 3, [2, 4]⟩) := by
  constructor
  · intro hn
    constructor
    · show retryAux outcomes 1 0 2 = _
      rw [retryAux, herr 0]
      simp [hn]
    · show retryAux outcomes 2 0 3 = _
      rw [retryAux, herr 0]
      simp [hn]
  · intro hn
    constructor
    · show retryAux outcomes 1 0 2 = _
      rw [retryAux, herr 0]
      simp only [hn 0, Bool.true_eq_false, false_or]
      rw [if_neg (by omega)]
      rw [retryAux, herr 1]
      simp
    · show retryAux outcomes 2 0 3 = _
      rw [retryAux, herr 0]
      simp only [hn 0, Bool.true_eq_false, false_or]
      rw [if_neg (by omega)]
      rw [retryAux, herr 1]
      simp only [hn 1, Bool.true_eq_false, false_or]
      rw [if_neg (by omega)]
      rw [retryAux, herr 2]
      simp

/-- Witness for C4 at a concrete persistent socket error. -/
theorem claim_C4_retry_policy_witness :
    llmPrimarySendRetry (fun _ => .error "socket hang up")
      = ⟨.error "socket hang up", 2, [1]⟩ ∧
    toolResponseSendRetry (fun _ => .error "socket hang up")
      = ⟨.error "socket hang up", 3, [2, 4]⟩ := by
  have h := claim_C4_retry_policy (fun _ => .error "socket hang up")
    (fun _ => "socket hang up") (fun _ => rfl)
  refine h.2 fun n => ?_
  show isNetworkError "socket hang up" = true
  decide

/-- C2 counterexample: a 404 response is a non-5xx status, yet the
post-deployment verifier invoked by the orchestrator
(wait_for_service_ready with its default expected codes) classifies the
service as not ready. -/
theorem claim_C2_cex :
    404 < 500 ∧
    waitForServiceReadyLoop defaultExpectedStatusCodes [some 404] = false := by
  decide

/-- Classification of the deploy-time health loop: it reports healthy
exactly when some probe in the window answered with a status below 500. -/
theorem verifyDeploymentHealthLoop_isSome_iff (attempts : List (Option Nat)) :
    (verifyDeploymentHealthLoop attempts).isSome = true ↔
      ∃ s, some s ∈ attempts ∧ s < 500 := by
  induction attempts with
  | nil => simp [verifyDeploymentHealthLoop]
  | cons o rest ih =>
    cases o with
    | none =>
      simp only [verifyDeploymentHealthLoop, ih, List.mem_cons]
      constructor
      · rintro ⟨s, hs, hlt⟩
        exact ⟨s, Or.inr hs, hlt⟩
      · rintro ⟨s, hs | hs, hlt⟩
        · cases hs
        · exact ⟨s, hs, hlt⟩
    | some v =>
      by_cases hv : v < 500
      · simp only [verifyDeploymentHealthLoop, if_pos hv, Option.isSome_some,
          List.mem_cons, true_iff]
        exact ⟨v, Or.inl rfl, hv⟩
      · simp only [verifyDeploymentHealthLoop, if_neg hv, ih, List.mem_cons]
        constructor
        · rintro ⟨s, hs, hlt⟩
          exact ⟨s, Or.inr hs, hlt⟩
        · rintro ⟨s, hs | hs, hlt⟩
          · cases hs; exact absurd hlt hv
          · exact ⟨s, hs, hlt⟩

/-- Classification of the wait-for-ready retry loop: it succeeds
exactly when some attempt answered with a status in the expected list. -/
theorem waitForServiceReadyLoop_iff (expected : List Nat)
    (attempts : List (Option Nat)) :
    waitForServiceReadyLoop expected attempts = true ↔
      ∃ s, some s ∈ attempts ∧ s ∈ expected := by
  induction attempts with
  | nil => simp [waitForServiceReadyLoop]
  | cons o rest ih =>
    cases o with
    | none =>
      simp only [waitForServiceReadyLoop, ih, List.mem_cons]
      constructor
      · rintro ⟨s, hs, hmem⟩
        exact ⟨s, Or.inr hs, hmem⟩
      · rintro ⟨s, hs | hs, hmem⟩
        · cases hs
        · exact ⟨s, hs, hmem⟩
    | some v =>
      by_cases hv : expected.contains v
      · simp only [waitForServiceReadyLoop, if_pos hv, List.mem_cons, true_iff]
        exact ⟨v, Or.inl rfl, (List.elem_iff.mp hv)⟩
      · simp only [waitForServiceReadyLoop, if_neg hv, ih, List.mem_cons]
        constructor
        · rintro ⟨s, hs, hmem⟩
          exact ⟨s, Or.inr hs, hmem⟩
        · rintro ⟨s, hs | hs, hmem⟩
          · cases hs
            exact absurd ((List.elem_iff.mpr hmem)) hv
          · exact ⟨s, hs, hmem⟩

/-- C2 (amended): the in-deploy verifier of the cloud service classifies
the deployment healthy exactly when a response with status below 500 is
observed within the verification window (404, 403 and redirects
included); the orchestrator's post-deployment verifier, which runs
wait_for_service_ready with the default expected codes, classifies the
service ready exactly when a response with status in {200, 204, 301,
302} is observed - a 404 or 403 there yields failure. -/
theorem claim_C2_health_classification (attempts : List (Option Nat)) :
    ((verifyDeploymentHealthLoop attempts).isSome = true ↔
      ∃ s, some s ∈ attempts ∧ s < 500) ∧
    (waitForServiceReadyLoop defaultExpectedStatusCodes attempts = true ↔
      ∃ s, some s ∈ attempts ∧ s ∈ defaultExpectedStatusCodes) :=
  ⟨verifyDeploymentHealthLoop_isSome_iff attempts,
   waitForServiceReadyLoop_iff defaultExpectedStatusCodes attempts⟩

/-- Witness for C3 at a concrete run: the primary returns a 429 quota
error, the backup accepts the re-issued message, and a further send
succeeds on the backup only. -/
theorem claim_C3_failover_permanent_witness :
    (sendWithFallback ⟨true, true, .primary, 0⟩ (fun _ => .error "429") (.ok ())).newState.chatEndpoint
      = Endpoint.backup ∧
    (sendWithFallback ⟨true, true, .primary, 0⟩ (fun _ => .error "429") (.ok ())).newState.chatId = 1 ∧
    ∀ r ∈ (runSends (sendWithFallback ⟨true, true, .primary, 0⟩ (fun _ => .error "429") (.ok ())).newState
      [⟨fun _ => .ok (), .ok ()⟩]).2, r = Endpoint.backup := by
  have h := claim_C3_failover_permanent ⟨true, true, .primary, 0⟩
    ⟨fun _ => .error "429", .ok ()⟩ [⟨fun _ => .ok (), .ok ()⟩] rfl (by decide)
  exact ⟨h.1, h.2.1, h.2.2.1⟩

end ServerGem
